import Mathlib

/-!
Shallow embedding of the connection-health engine of `src/core/health_tracker.py`
(class `HealthTracker`).  Latencies, times and percentages are modelled as exact
rationals; the external ping capability is modelled as an `Option ℚ` outcome
(`none` = probe failure) supplied at each call site.  Sample standard deviations
(`statistics.stdev`) are irrational in general, so they are passed as an explicit
argument constrained by the relation `JitterOf` / `CvOf` (nonnegative square root
of the sample variance).
-/

namespace HealthTracker

/-- Mean of a list of rationals (`statistics.mean`); 0 on the empty list. -/
def listMean (l : List ℚ) : ℚ := l.sum / l.length

/-- Sum of squared deviations divided by `n - 1`: the sample variance underlying
`statistics.stdev`.  Only used for lists of length ≥ 2 (the source guards all
`stdev` calls with a length check). -/
def sampleVariance (l : List ℚ) : ℚ :=
  ((l.map (fun x => (x - listMean l) ^ 2)).sum) / ((l.length : ℚ) - 1)

/-- Characterises `j = statistics.stdev pings if len(pings) > 1 else 0`, the
jitter computed by `get_health_score`: the nonnegative square root of the sample
variance when at least two samples exist, 0 otherwise. -/
def JitterOf (l : List ℚ) (j : ℚ) : Prop :=
  if 1 < l.length then 0 ≤ j ∧ j ^ 2 = sampleVariance l else j = 0

instance (l : List ℚ) (j : ℚ) : Decidable (JitterOf l j) :=
  if h : 1 < l.length then
    decidable_of_iff (0 ≤ j ∧ j ^ 2 = sampleVariance l) (by simp [JitterOf, h])
  else
    decidable_of_iff (j = 0) (by simp [JitterOf, h])

/-- Minimum of a list of rationals (`min(pings)` style), `none` on empty. -/
def listMin : List ℚ → Option ℚ
  | [] => none
  | x :: xs => some (match listMin xs with | none => x | some m => min x m)

/-- Maximum of a list of rationals, `none` on empty. -/
def listMax : List ℚ → Option ℚ
  | [] => none
  | x :: xs => some (match listMax xs with | none => x | some m => max x m)

/-- Minimum with default 0 (used only on nonempty lists). -/
def listMinD (l : List ℚ) : ℚ := (listMin l).getD 0

/-- Maximum with default 0 (used only on nonempty lists). -/
def listMaxD (l : List ℚ) : ℚ := (listMax l).getD 0

/-- Round to the nearest integer, ties to even: the rounding mode of Python's
builtin `round`. -/
def roundHalfEven (x : ℚ) : ℤ :=
  let f := Int.floor x
  let r := x - f
  if r < 1 / 2 then f
  else if 1 / 2 < r then f + 1
  else if f % 2 = 0 then f else f + 1

/-- Python `round(x, 2)`. -/
def round2 (x : ℚ) : ℚ := (roundHalfEven (x * 100) : ℚ) / 100

/-- Python `f"{x:.1f}"` for nonnegative `x`: one decimal digit, ties to even. -/
def fmt1 (q : ℚ) : String :=
  let r : ℤ := roundHalfEven (q * 10)
  toString (r / 10) ++ "." ++ toString (r % 10)

/-- One entry of `self.metrics` (the History sequence): the dict built by
`log_metrics`. -/
structure HealthRecord where
  timestamp : String
  latency : Option ℚ
  connected : Bool
  score : ℤ
  category : String
  deriving Repr, DecidableEq

/-! ## Result cache (`self.cache`, `_check_cache`, `_update_cache`) -/

/-- The single shared cache slot: `last_test_time` and `last_test_result`.
`cache_duration` is the constant 2 (seconds). -/
structure Cache where
  last_test_time : Option ℚ
  last_test_result : Option ℚ
  deriving Repr, DecidableEq

/-- `self.cache['cache_duration']` (seconds). -/
def cache_duration : ℚ := 2

/-- `_check_cache(host)`: true iff a previous result was recorded less than
`cache_duration` ago.  The `host` argument is ignored by the source, which keys
the slot only by recency. -/
def check_cache (_host : String) (c : Cache) (now : ℚ) : Bool :=
  match c.last_test_time with
  | none => false
  | some t => decide (now - t < cache_duration)

/-- `_update_cache(host, result)`: overwrite the single slot with the current
time and the new result (the `host` argument is likewise unused). -/
def update_cache (_host : String) (_c : Cache) (now : ℚ) (result : Option ℚ) : Cache :=
  { last_test_time := some now, last_test_result := result }

/-- Outcome of one underlying external probe attempt, distinguished the way the
source's control flow distinguishes them:
* `latency v` — the command ran, exited 0 and its output parsed to `v` ms; the
  source calls `_update_cache(host, latency)`;
* `failed` — non-zero exit code, `subprocess.TimeoutExpired`, or unparsable
  output; the source calls `_update_cache(host, None)` and returns `None`;
* `error` — `FileNotFoundError` (ping tool missing) or the generic `except`
  branch; the source returns `None` WITHOUT updating the cache. -/
inductive ProbeOutcome where
  | latency (v : ℚ)
  | failed
  | error
  deriving Repr, DecidableEq

/-- The latency value a probe outcome yields to the caller (`None` on any kind
of failure). -/
def probeResult : ProbeOutcome → Option ℚ
  | ProbeOutcome.latency v => some v
  | ProbeOutcome.failed => none
  | ProbeOutcome.error => none

/-- Outcome of one `ping_test` call: the returned latency (or `none`), the cache
afterwards, and whether the underlying external probe was actually invoked. -/
structure PingOutcome where
  result : Option ℚ
  cache : Cache
  invoked : Bool
  deriving Repr, DecidableEq

/-- `ping_test(host)` at time `now`, where `probe` is how the external probe
attempt would turn out.  On a cache hit the cached result is returned and the
probe is not invoked; otherwise the probe runs and the cache is refreshed with
its result on the parsed-latency, bad-returncode, timeout and unparsable-output
paths, but NOT on the `FileNotFoundError` / generic-exception paths, which
return `None` leaving the cache untouched (health_tracker.py lines 167-172). -/
def ping_test (host : String) (c : Cache) (now : ℚ) (probe : ProbeOutcome) : PingOutcome :=
  if check_cache host c now then
    { result := c.last_test_result, cache := c, invoked := false }
  else
    match probe with
    | ProbeOutcome.latency v =>
      { result := some v, cache := update_cache host c now (some v), invoked := true }
    | ProbeOutcome.failed =>
      { result := none, cache := update_cache host c now none, invoked := true }
    | ProbeOutcome.error =>
      { result := none, cache := c, invoked := true }

/-! ## Connection state and `check_connectivity` -/

/-- `self.connection_state`. -/
structure ConnectionState where
  is_connected : Bool
  last_connected : Option ℚ
  last_disconnected : Option ℚ
  disconnect_count : ℕ
  total_downtime : ℚ
  deriving Repr, DecidableEq

/-- The state-transition block at the end of `check_connectivity`, applied to
the fan-out outcome `isConn` at time `now`. -/
def updateConnectionState (s : ConnectionState) (isConn : Bool) (now : ℚ) : ConnectionState :=
  if isConn then
    let s1 :=
      if s.is_connected = false then
        match s.last_disconnected with
        | some td => { s with total_downtime := s.total_downtime + (now - td) }
        | none => s
      else s
    { s1 with is_connected := true, last_connected := some now }
  else
    let s1 :=
      if s.is_connected = true then
        { s with disconnect_count := s.disconnect_count + 1, last_disconnected := some now }
      else s
    { s1 with is_connected := false }

/-- The fan-out selection loop of `check_connectivity`: walk the probe results
in completion order keeping the first strict minimum seen so far
(`latency is not None and latency < fastest_latency`). -/
def selectFastestGo : Option (String × ℚ) → List (String × Option ℚ) → Option (String × ℚ)
  | best, [] => best
  | best, (_h, none) :: rest => selectFastestGo best rest
  | none, (h, some l) :: rest => selectFastestGo (some (h, l)) rest
  | some (bh, bl), (h, some l) :: rest =>
    if l < bl then selectFastestGo (some (h, l)) rest
    else selectFastestGo (some (bh, bl)) rest

/-- The fan-out selection starting from `fastest_latency = inf`,
`fastest_host = None` (an absent accumulator plays the role of infinity). -/
def selectFastest (rs : List (String × Option ℚ)) : Option (String × ℚ) :=
  selectFastestGo none rs

/-- The latencies of the successful probes among the fan-out results. -/
def successLats (rs : List (String × Option ℚ)) : List ℚ :=
  rs.filterMap Prod.snd

/-- Written from the claim's words, for comparison with `selectFastest`: the
target whose successful probe has the minimum latency, ties resolved in favour
of the first minimum observed in completion order. -/
def firstMinTarget (rs : List (String × Option ℚ)) : Option (String × ℚ) :=
  match listMin (successLats rs) with
  | none => none
  | some m =>
    match rs.find? (fun p => p.2 == some m) with
    | some p => some (p.1, m)
    | none => none

/-- `check_connectivity` given the fan-out results `rs` (in completion order)
at time `now`: returns `(is_connected, fastest_host)` and the updated
connection state. -/
def check_connectivity (s : ConnectionState) (rs : List (String × Option ℚ)) (now : ℚ) :
    Bool × Option String × ConnectionState :=
  let f := selectFastest rs
  ((f.isSome : Bool), f.map Prod.fst, updateConnectionState s f.isSome now)

/-- A sequence of `check_connectivity` calls (each with its fan-out results and
its time), threaded through the connection state. -/
def runConnectivity (s : ConnectionState) (evs : List (List (String × Option ℚ) × ℚ)) :
    ConnectionState :=
  evs.foldl (fun st e => (check_connectivity st e.1 e.2).2.2) s

/-- Number of connected→disconnected (`true → false`) transitions in a trace of
connectivity outcomes, starting from the given previous state. -/
def countDrops : Bool → List Bool → ℕ
  | _, [] => 0
  | prev, c :: rest => (if prev = true ∧ c = false then 1 else 0) + countDrops c rest

/-! ## Health scoring (`get_health_score`) -/

/-- The successful pings collected by the burst loop of `get_health_score`. -/
def pingsOf (results : List (Option ℚ)) : List ℚ := results.filterMap id

/-- The fixed burst size `ping_count = 10`. -/
def ping_count : ℕ := 10

/-- Latency sub-score ladder (weight 0.4). -/
def latency_score (avg : ℚ) : ℤ :=
  if avg < 20 then 100
  else if avg < 50 then 90
  else if avg < 100 then 70
  else if avg < 200 then 50
  else if avg < 300 then 30
  else 10

/-- Alerts appended by the latency ladder branches. -/
def latency_alerts (avg : ℚ) : List String :=
  if avg < 20 then []
  else if avg < 50 then []
  else if avg < 100 then ["Latência elevada: " ++ fmt1 avg ++ "ms"]
  else if avg < 200 then ["⚠ Latência alta: " ++ fmt1 avg ++ "ms"]
  else if avg < 300 then ["🔴 Latência crítica: " ++ fmt1 avg ++ "ms"]
  else ["🔴 Latência severa: " ++ fmt1 avg ++ "ms"]

/-- Packet-loss sub-score ladder (weight 0.3). -/
def packet_loss_score (pl : ℚ) : ℤ :=
  if pl = 0 then 100
  else if pl < 1 then 95
  else if pl < 5 then 80
  else if pl < 10 then 60
  else if pl < 20 then 40
  else 20

/-- Alerts appended by the packet-loss ladder branches. -/
def packet_loss_alerts (pl : ℚ) : List String :=
  if pl = 0 then []
  else if pl < 1 then []
  else if pl < 5 then ["Perda de pacotes: " ++ fmt1 pl ++ "%"]
  else if pl < 10 then ["⚠ Perda de pacotes significativa: " ++ fmt1 pl ++ "%"]
  else if pl < 20 then ["🔴 Perda de pacotes alta: " ++ fmt1 pl ++ "%"]
  else ["🔴 Perda de pacotes crítica: " ++ fmt1 pl ++ "%"]

/-- Jitter sub-score ladder (weight 0.2). -/
def jitter_score (j : ℚ) : ℤ :=
  if j < 5 then 100
  else if j < 10 then 90
  else if j < 30 then 70
  else if j < 50 then 50
  else if j < 100 then 30
  else 10

/-- Alerts appended by the jitter ladder branches. -/
def jitter_alerts (j : ℚ) : List String :=
  if j < 5 then []
  else if j < 10 then []
  else if j < 30 then []
  else if j < 50 then ["Jitter elevado: " ++ fmt1 j ++ "ms"]
  else if j < 100 then ["⚠ Jitter alto: " ++ fmt1 j ++ "ms"]
  else ["🔴 Jitter crítico: " ++ fmt1 j ++ "ms"]

/-- Uptime sub-score ladder (weight 0.1), used when History is nonempty. -/
def uptime_score (u : ℚ) : ℤ :=
  if 99 ≤ u then 100
  else if 95 ≤ u then 85
  else if 90 ≤ u then 70
  else if 80 ≤ u then 50
  else 30

/-- Alerts appended by the uptime ladder branches. -/
def uptime_alerts (u : ℚ) : List String :=
  if 99 ≤ u then []
  else if 95 ≤ u then []
  else if 90 ≤ u then []
  else if 80 ≤ u then ["Uptime baixo: " ++ fmt1 u ++ "%"]
  else ["⚠ Uptime crítico: " ++ fmt1 u ++ "%"]

/-- Fraction of `connected` entries among the most recent 100 History records,
as a percentage; 100 when History is empty (the source sets
`uptime_percent = 100.0` without entering the ladder in that case). -/
def uptimePercent (metrics : List HealthRecord) : ℚ :=
  if metrics.isEmpty then 100
  else
    let recent := metrics.drop (metrics.length - 100)
    if recent.length = 0 then 100
    else ((recent.filter (fun m => m.connected)).length : ℚ) / (recent.length : ℚ) * 100

/-- The uptime sub-score actually used by `get_health_score`: the ladder value
when History is nonempty, the fixed 100 of the `else` branch when it is empty. -/
def uptime_subscore (metrics : List HealthRecord) : ℤ :=
  if metrics.isEmpty then 100 else uptime_score (uptimePercent metrics)

/-- `get_health_category(score)`. -/
def get_health_category (score : ℤ) : String :=
  if 80 ≤ score then "Excelente"
  else if 60 ≤ score then "Bom"
  else if 40 ≤ score then "Regular"
  else "Ruim"

/-- The detailed result dict of `get_health_score`.  The zero-success dict of
the source omits the `pings_successful` / `pings_total` keys; they are modelled
as 0 and `ping_count` there. -/
structure HealthResult where
  score : ℤ
  category : String
  latency : Option (ℚ × ℚ × ℚ)
  packet_loss : ℚ
  jitter : Option ℚ
  uptime : ℚ
  pings_successful : ℕ
  pings_total : ℕ
  alerts : List String
  deriving Repr, DecidableEq

/-- `get_health_score(detailed=True)` on the burst outcomes `results` (one
`Option ℚ` per probe, in order), with the sample standard deviation of the
successful pings supplied as `jitter` (see `JitterOf`) and the History sequence
as `metrics` (for the uptime sub-score). -/
def get_health_score (results : List (Option ℚ)) (jitter : ℚ)
    (metrics : List HealthRecord) : HealthResult :=
  let pings := pingsOf results
  if pings.isEmpty then
    { score := 0
      category := "Desconectado"
      latency := none
      packet_loss := 100
      jitter := none
      uptime := 0
      pings_successful := 0
      pings_total := ping_count
      alerts := ["Sem conexão com a internet"] }
  else
    let avg_latency := listMean pings
    let min_latency := listMinD pings
    let max_latency := listMaxD pings
    let packet_loss_pct := (((ping_count : ℚ) - (pings.length : ℚ)) / (ping_count : ℚ)) * 100
    let jit := if 1 < pings.length then jitter else 0
    let u := uptimePercent metrics
    let us : ℤ := uptime_subscore metrics
    let ualerts := if metrics.isEmpty then [] else uptime_alerts u
    let final_score : ℤ :=
      Int.floor ((latency_score avg_latency : ℚ) * 0.4 + (packet_loss_score packet_loss_pct : ℚ) * 0.3
        + (jitter_score jit : ℚ) * 0.2 + (us : ℚ) * 0.1)
    { score := final_score
      category := get_health_category final_score
      latency := some (round2 avg_latency, round2 min_latency, round2 max_latency)
      packet_loss := round2 packet_loss_pct
      jitter := some (round2 jit)
      uptime := round2 u
      pings_successful := pings.length
      pings_total := ping_count
      alerts := latency_alerts avg_latency ++ packet_loss_alerts packet_loss_pct
        ++ jitter_alerts jit ++ ualerts }

/-- `get_health_score(detailed=False)`: the bare integer (0 in the zero-success
branch, `final_score` otherwise — in both branches the `score` field of the
detailed dict). -/
def get_health_score_simple (results : List (Option ℚ)) (jitter : ℚ)
    (metrics : List HealthRecord) : ℤ :=
  (get_health_score results jitter metrics).score

/-! ## History bound and flush (`log_metrics`) -/

/-- The append-and-truncate step of `log_metrics`:
`self.metrics.append(metric)` followed by
`if len(self.metrics) > 1000: self.metrics = self.metrics[-1000:]`. -/
def histAppend (metrics : List HealthRecord) (m : HealthRecord) : List HealthRecord :=
  if 1000 < (metrics ++ [m]).length then
    (metrics ++ [m]).drop ((metrics ++ [m]).length - 1000)
  else metrics ++ [m]

/-- One `log_metrics` call restricted to its History effects: the new History
and whether `_save_history` fires (`len(self.metrics) % 10 == 0`, checked after
truncation). -/
def log_metrics_step (metrics : List HealthRecord) (m : HealthRecord) :
    List HealthRecord × Bool :=
  let ms := histAppend metrics m
  (ms, ms.length % 10 == 0)

/-- A sequence of `log_metrics` appends threaded through History. -/
def histAll (metrics : List HealthRecord) (recs : List HealthRecord) : List HealthRecord :=
  recs.foldl histAppend metrics

/-! ## Stability analysis (`get_connection_stability`) -/

/-- The stability report dict (the `avg_uptime_duration` key, present only in
the empty-History dict of the source, is not modelled). -/
structure StabilityReport where
  stability_score : ℤ
  disconnect_events : ℕ
  total_downtime : ℚ
  latency_variability : ℚ
  recommendation : String
  deriving Repr, DecidableEq

/-- The latencies the source actually collects:
`[m.get('latency') for m in self.metrics[-100:] if m.get('latency')]` — the
condition is Python truthiness, so a latency of exactly 0 is excluded along
with absent ones. -/
def truthyLatencies (metrics : List HealthRecord) : List ℚ :=
  (metrics.drop (metrics.length - 100)).filterMap
    (fun m => match m.latency with
      | some l => if l = 0 then none else some l
      | none => none)

/-- Written from the claim's words, for comparison with `truthyLatencies`: the
latencies of the last 100 records that have one (no truthiness filter). -/
def presentLatencies (metrics : List HealthRecord) : List ℚ :=
  (metrics.drop (metrics.length - 100)).filterMap (fun m => m.latency)

/-- Characterises the `latency_cv` value computed by `get_connection_stability`
over the sample list `lats`: `stdev/mean * 100` when more than 10 samples exist
and the mean is positive, 0 otherwise.  Squared to stay inside ℚ:
`c = stdev/mean*100` iff `c ≥ 0` and `c² = variance/mean² * 10000`. -/
def CvOf (lats : List ℚ) (c : ℚ) : Prop :=
  if 10 < lats.length then
    if 0 < listMean lats then 0 ≤ c ∧ c ^ 2 = sampleVariance lats / (listMean lats) ^ 2 * 10000
    else c = 0
  else c = 0

instance (lats : List ℚ) (c : ℚ) : Decidable (CvOf lats c) :=
  if h : 10 < lats.length then
    if hm : 0 < listMean lats then
      decidable_of_iff (0 ≤ c ∧ c ^ 2 = sampleVariance lats / (listMean lats) ^ 2 * 10000)
        (by simp [CvOf, h, hm])
    else decidable_of_iff (c = 0) (by simp [CvOf, h, hm])
  else decidable_of_iff (c = 0) (by simp [CvOf, h])

/-- `get_connection_stability()`, with the coefficient of variation
`latency_cv` supplied as an argument (see `CvOf (truthyLatencies metrics)`). -/
def get_connection_stability (metrics : List HealthRecord) (cs : ConnectionState)
    (latency_cv : ℚ) : StabilityReport :=
  if metrics.isEmpty then
    { stability_score := 100
      disconnect_events := 0
      total_downtime := 0
      latency_variability := 0
      recommendation := "Sem dados históricos ainda" }
  else
    let disconnect_events := cs.disconnect_count
    let total_downtime := cs.total_downtime
    let res :=
      if disconnect_events = 0 ∧ latency_cv < 20 then
        ((100 : ℤ), "Conexão excelente e estável")
      else if disconnect_events < 3 ∧ latency_cv < 40 then
        ((80 : ℤ), "Conexão boa com pequenas variações")
      else if disconnect_events < 5 ∧ latency_cv < 60 then
        ((60 : ℤ), "Conexão instável, considere reiniciar roteador")
      else
        ((40 : ℤ), "Conexão muito instável, verifique cabeamento e equipamentos")
    { stability_score := res.1
      disconnect_events := disconnect_events
      total_downtime := round2 total_downtime
      latency_variability := round2 latency_cv
      recommendation := res.2 }

/-! ## Persistence (`_save_history` / `_load_history`) -/

/-- JSON value tree.  The Python `json` module's dump/parse round trip is
modelled as the identity on these trees (its documented contract); the file
content is therefore represented directly as a `Json` value. -/
inductive Json where
  | null
  | bool (b : Bool)
  | num (q : ℚ)
  | str (s : String)
  | arr (items : List Json)
  | obj (fields : List (String × Json))

/-- The JSON object `json.dump` writes for one metric dict, key order as built
by `log_metrics`. -/
def encodeRecord (r : HealthRecord) : Json :=
  Json.obj
    [("timestamp", Json.str r.timestamp),
     ("latency", match r.latency with | some l => Json.num l | none => Json.null),
     ("connected", Json.bool r.connected),
     ("score", Json.num (r.score : ℚ)),
     ("category", Json.str r.category)]

/-- Reads one loaded JSON object back as a metric record, the way the rest of
the code consumes the loaded dicts (`m.get('latency')`, `m.get('connected')`,
…); `none` if the shape does not match. -/
def decodeRecord : Json → Option HealthRecord
  | Json.obj [("timestamp", Json.str t), ("latency", lat), ("connected", Json.bool c),
      ("score", Json.num s), ("category", Json.str cat)] =>
    if s.den = 1 then
      match lat with
      | Json.null => some ⟨t, none, c, s.num, cat⟩
      | Json.num l => some ⟨t, some l, c, s.num, cat⟩
      | _ => none
    else none
  | _ => none

/-- Reads a loaded JSON array element-by-element; `none` if any element fails. -/
def decodeRecords : List Json → Option (List HealthRecord)
  | [] => some []
  | j :: rest =>
    match decodeRecord j, decodeRecords rest with
    | some r, some rs => some (r :: rs)
    | _, _ => none

/-- `_save_history`: `json.dump(self.metrics, f)` — the file now holds the JSON
array of encoded records. -/
def save_history (metrics : List HealthRecord) : Json :=
  Json.arr (metrics.map encodeRecord)

/-- `_load_history` on a fresh instance: `self.metrics` starts `[]`; if the
history file exists its JSON array is loaded, any failure leaves `[]`. -/
def load_history (file : Option Json) : List HealthRecord :=
  match file with
  | some (Json.arr items) => (decodeRecords items).getD []
  | some _ => []
  | none => []

/-! ## The probe burst of `get_health_score` through the cache -/

/-- One burst iteration: `ping_test(count=1)` against the primary host at the
given time, with the given prospective external-probe outcome, appending the
returned latency option. -/
def runBurstStep (s : Cache × List (Option ℚ)) (call : ℚ × ProbeOutcome) :
    Cache × List (Option ℚ) :=
  let o := ping_test "8.8.8.8" s.1 call.1 call.2
  (o.cache, s.2 ++ [o.result])

/-- The burst loop of `get_health_score`: sequential `ping_test` calls at the
given times (separated by the 50 ms sleeps), threaded through the cache. -/
def runBurst (c : Cache) (calls : List (ℚ × ProbeOutcome)) : Cache × List (Option ℚ) :=
  calls.foldl runBurstStep (c, [])

/-- Concrete burst schedule for the C10 counterexample: ten calls 50 ms apart
starting at t = 1.9, each prospective probe answering 30 ms (consulted only on
a cache miss). -/
def burstCalls : List (ℚ × ProbeOutcome) :=
  [(19 / 10, ProbeOutcome.latency 30), (39 / 20, ProbeOutcome.latency 30),
   (2, ProbeOutcome.latency 30), (41 / 20, ProbeOutcome.latency 30),
   (21 / 10, ProbeOutcome.latency 30), (43 / 20, ProbeOutcome.latency 30),
   (11 / 5, ProbeOutcome.latency 30), (9 / 4, ProbeOutcome.latency 30),
   (23 / 10, ProbeOutcome.latency 30), (47 / 20, ProbeOutcome.latency 30)]

/-- Concrete burst whose first probe attempt raises (exception path, no cache
write) and whose remaining nine probes answer 30 ms, 50 ms apart (for the C10
counterexample). -/
def burstErrorCalls : List (ℚ × ProbeOutcome) :=
  [(0, ProbeOutcome.error), (1 / 20, ProbeOutcome.latency 30),
   (1 / 10, ProbeOutcome.latency 30), (3 / 20, ProbeOutcome.latency 30),
   (1 / 5, ProbeOutcome.latency 30), (1 / 4, ProbeOutcome.latency 30),
   (3 / 10, ProbeOutcome.latency 30), (7 / 20, ProbeOutcome.latency 30),
   (2 / 5, ProbeOutcome.latency 30), (9 / 20, ProbeOutcome.latency 30)]

/-- Concrete tail of a burst starting with an empty cache: nine follow-up calls
50 ms apart (for the C10 amended witness). -/
def burstFreshRest : List (ℚ × ProbeOutcome) :=
  [(1 / 20, ProbeOutcome.latency 30), (1 / 10, ProbeOutcome.latency 30),
   (3 / 20, ProbeOutcome.latency 30), (1 / 5, ProbeOutcome.latency 30),
   (1 / 4, ProbeOutcome.latency 30), (3 / 10, ProbeOutcome.latency 30),
   (7 / 20, ProbeOutcome.latency 30), (2 / 5, ProbeOutcome.latency 30),
   (9 / 20, ProbeOutcome.latency 30)]

/-- Concrete History for the C6 counterexample: eleven records, ten with
nonzero latencies [16, 6, 11 × 8] and one with latency exactly 0. -/
def stabilityMetricsExample : List HealthRecord :=
  [⟨"", some 16, true, 0, ""⟩, ⟨"", some 6, true, 0, ""⟩,
   ⟨"", some 11, true, 0, ""⟩, ⟨"", some 11, true, 0, ""⟩,
   ⟨"", some 11, true, 0, ""⟩, ⟨"", some 11, true, 0, ""⟩,
   ⟨"", some 11, true, 0, ""⟩, ⟨"", some 11, true, 0, ""⟩,
   ⟨"", some 11, true, 0, ""⟩, ⟨"", some 11, true, 0, ""⟩,
   ⟨"", some 0, true, 0, ""⟩]

/-- Concrete freshly-initialised connection state. -/
def initialConnectionState : ConnectionState :=
  { is_connected := false
    last_connected := none
    last_disconnected := none
    disconnect_count := 0
    total_downtime := 0 }

/-- Concrete record used as a generic History entry in witnesses. -/
def sampleRecord : HealthRecord :=
  { timestamp := "", latency := none, connected := false, score := 0, category := "" }

/-- Concrete all-fail burst for the C2 witness. -/
def burstAllFail : List (Option ℚ) :=
  [none, none, none, none, none, none, none, none, none, none]

/-- Concrete all-success burst (ten 30 ms samples) for the C1 witness. -/
def burstAllOk : List (Option ℚ) :=
  [some 30, some 30, some 30, some 30, some 30, some 30, some 30, some 30, some 30, some 30]

/-! ## Theorems -/

/-- C3 counterexample: the claim's "exactly one underlying invocation per
in-window pair" fails in both directions.  A pair whose first request hits a
still-valid pre-existing cache entry (populated at t = 0, pair at t = 0.5 and
t = 1) triggers zero invocations; a pair whose first probe attempt raises
(`FileNotFoundError` / generic exception — the source returns `None` without
calling `_update_cache`) leaves the slot unwritten, so the second request one
second later invokes the probe again: two invocations. -/
theorem ping_test_cache_counterexample :
    ((1 : ℚ) - 1 / 2 < cache_duration ∧
     (ping_test "8.8.8.8" ⟨some 0, some 25⟩ (1 / 2) (ProbeOutcome.latency 30)).invoked
       = false ∧
     (ping_test "1.1.1.1"
       (ping_test "8.8.8.8" ⟨some 0, some 25⟩ (1 / 2) (ProbeOutcome.latency 30)).cache 1
       (ProbeOutcome.latency 30)).invoked = false) ∧
    ((1 : ℚ) - 0 < cache_duration ∧
     (ping_test "8.8.8.8" ⟨none, none⟩ 0 ProbeOutcome.error).invoked = true ∧
     (ping_test "8.8.8.8"
       (ping_test "8.8.8.8" ⟨none, none⟩ 0 ProbeOutcome.error).cache 1
       (ProbeOutcome.latency 30)).invoked = true) := by
  refine ⟨⟨by norm_num [cache_duration], ?_, ?_⟩, ⟨by norm_num [cache_duration], ?_, ?_⟩⟩ <;>
    norm_num [ping_test, check_cache, update_cache, cache_duration]

/-- C3 amended: for a pair of `ping_test` requests less than `cache_duration`
apart — to the same or to different targets — whose first request misses the
cache (no valid prior entry) and whose first probe attempt completes through an
outcome-recording path (parsed latency, bad exit code, timeout or unparsable
output — not the exception paths that skip `_update_cache`): the first request
invokes the external probe and records its outcome in the single shared slot,
and the second request is served from that slot without another invocation —
exactly one underlying invocation in total. -/
theorem ping_test_cache_suppression (h1 h2 : String) (c : Cache) (t1 t2 : ℚ)
    (p1 p2 : ProbeOutcome) (hmiss : check_cache h1 c t1 = false)
    (hrec : p1 ≠ ProbeOutcome.error) (_hord : t1 ≤ t2)
    (hwin : t2 - t1 < cache_duration) :
    (ping_test h1 c t1 p1).invoked = true ∧
    (ping_test h2 (ping_test h1 c t1 p1).cache t2 p2).invoked = false ∧
    (ping_test h2 (ping_test h1 c t1 p1).cache t2 p2).result = probeResult p1 ∧
    (ping_test h2 (ping_test h1 c t1 p1).cache t2 p2).cache = (ping_test h1 c t1 p1).cache := by
  have hfst : ping_test h1 c t1 p1 =
      { result := probeResult p1, cache := update_cache h1 c t1 (probeResult p1),
        invoked := true } := by
    cases p1 with
    | latency v => simp [ping_test, hmiss, probeResult]
    | failed => simp [ping_test, hmiss, probeResult]
    | error => exact absurd rfl hrec
  have hhit : check_cache h2 (update_cache h1 c t1 (probeResult p1)) t2 = true := by
    simp [check_cache, update_cache]
    exact hwin
  simp only [update_cache] at hhit
  rw [hfst]
  simp [ping_test, update_cache, hhit]

/-- C3 amended witness: a fresh cache, a first call whose probe answers 25 ms,
and a second call one second later to a different host that reuses the cached
25 ms result without invoking its probe. -/
theorem ping_test_cache_suppression_witness :
    check_cache "8.8.8.8" ⟨none, none⟩ 0 = false ∧
    ProbeOutcome.latency 25 ≠ ProbeOutcome.error ∧
    (0 : ℚ) ≤ 1 ∧ (1 : ℚ) - 0 < cache_duration ∧
    ((ping_test "8.8.8.8" ⟨none, none⟩ 0 (ProbeOutcome.latency 25)).invoked = true ∧
     (ping_test "1.1.1.1"
       (ping_test "8.8.8.8" ⟨none, none⟩ 0 (ProbeOutcome.latency 25)).cache 1
       ProbeOutcome.failed).invoked = false ∧
     (ping_test "1.1.1.1"
       (ping_test "8.8.8.8" ⟨none, none⟩ 0 (ProbeOutcome.latency 25)).cache 1
       ProbeOutcome.failed).result = probeResult (ProbeOutcome.latency 25) ∧
     (ping_test "1.1.1.1"
       (ping_test "8.8.8.8" ⟨none, none⟩ 0 (ProbeOutcome.latency 25)).cache 1
       ProbeOutcome.failed).cache =
       (ping_test "8.8.8.8" ⟨none, none⟩ 0 (ProbeOutcome.latency 25)).cache) := by
  refine ⟨rfl, fun h => ProbeOutcome.noConfusion h, by norm_num,
    by norm_num [cache_duration], ?_⟩
  exact ping_test_cache_suppression "8.8.8.8" "1.1.1.1" ⟨none, none⟩ 0 1
    (ProbeOutcome.latency 25) ProbeOutcome.failed rfl
    (fun h => ProbeOutcome.noConfusion h) (by norm_num) (by norm_num [cache_duration])

/-- Connectivity outcome written into the state equals the fan-out outcome. -/
theorem updateConnectionState_is_connected (s : ConnectionState) (c : Bool) (now : ℚ) :
    (updateConnectionState s c now).is_connected = c := by
  cases c <;> rfl

/-- Step characterisation of `disconnect_count`. -/
theorem updateConnectionState_disconnect_count (s : ConnectionState) (c : Bool) (now : ℚ) :
    (updateConnectionState s c now).disconnect_count =
      s.disconnect_count + (if s.is_connected = true ∧ c = false then 1 else 0) := by
  cases c with
  | false =>
    cases hs : s.is_connected with
    | false => simp [updateConnectionState, hs]
    | true => simp [updateConnectionState, hs]
  | true =>
    cases hs : s.is_connected with
    | false => cases hl : s.last_disconnected <;> simp [updateConnectionState, hs, hl]
    | true => simp [updateConnectionState, hs]

/-- Step characterisation of `total_downtime`. -/
theorem updateConnectionState_total_downtime (s : ConnectionState) (c : Bool) (now : ℚ) :
    (updateConnectionState s c now).total_downtime =
      s.total_downtime +
        (if s.is_connected = false ∧ c = true then
          (s.last_disconnected.map (fun td => now - td)).getD 0
        else 0) := by
  cases c with
  | false =>
    cases hs : s.is_connected with
    | false => simp [updateConnectionState, hs]
    | true => simp [updateConnectionState, hs]
  | true =>
    cases hs : s.is_connected with
    | false => cases hl : s.last_disconnected <;> simp [updateConnectionState, hs, hl]
    | true => simp [updateConnectionState, hs]

/-- C4: across every sequence of `check_connectivity` calls, `disconnect_count`
increments exactly once per connected→disconnected transition and never
otherwise, and `total_downtime` accumulates only on a disconnected→connected
transition, adding exactly the elapsed time since `last_disconnected` (nothing
when no disconnection was ever recorded). -/
theorem check_connectivity_transition_accounting (s : ConnectionState)
    (rs : List (String × Option ℚ)) (now : ℚ)
    (evs : List (List (String × Option ℚ) × ℚ)) :
    ((check_connectivity s rs now).2.2.disconnect_count =
      s.disconnect_count +
        (if s.is_connected = true ∧ (selectFastest rs).isSome = false then 1 else 0)) ∧
    ((check_connectivity s rs now).2.2.total_downtime =
      s.total_downtime +
        (if s.is_connected = false ∧ (selectFastest rs).isSome = true then
          (s.last_disconnected.map (fun td => now - td)).getD 0
        else 0)) ∧
    ((runConnectivity s evs).disconnect_count =
      s.disconnect_count +
        countDrops s.is_connected (evs.map (fun e => (selectFastest e.1).isSome))) := by
  refine ⟨?_, ?_, ?_⟩
  · simpa [check_connectivity] using
      updateConnectionState_disconnect_count s (selectFastest rs).isSome now
  · simpa [check_connectivity] using
      updateConnectionState_total_downtime s (selectFastest rs).isSome now
  · induction evs generalizing s with
    | nil => simp [runConnectivity, countDrops]
    | cons e rest ih =>
      have hstep := updateConnectionState_disconnect_count s (selectFastest e.1).isSome e.2
      have hconn := updateConnectionState_is_connected s (selectFastest e.1).isSome e.2
      have hrest := ih (updateConnectionState s (selectFastest e.1).isSome e.2)
      simp only [runConnectivity, List.foldl_cons, List.map_cons, countDrops,
        check_connectivity] at *
      rw [hrest, hstep, hconn]
      omega

/-- History truncation never leaves more than 1000 records. -/
theorem histAppend_length_le (M : List HealthRecord) (m : HealthRecord) :
    (histAppend M m).length ≤ 1000 := by
  unfold histAppend
  split
  · simp only [List.length_drop]
    omega
  · simp only [List.length_append, List.length_cons, List.length_nil] at *
    omega

/-- Closed form of repeated `log_metrics` appends into an empty History:
only the most recent 1000 records survive, in order. -/
theorem histAll_eq_drop (rs : List HealthRecord) :
    histAll [] rs = rs.drop (rs.length - 1000) := by
  induction rs using List.reverseRecOn with
  | nil => simp [histAll]
  | append_singleton l a ih =>
    have hfold : histAll [] (l ++ [a]) = histAppend (histAll [] l) a := by
      simp [histAll, List.foldl_append]
    rw [hfold, ih]
    by_cases hn : l.length < 1000
    · have h0 : l.length - 1000 = 0 := by omega
      have h1 : (l ++ [a]).length - 1000 = 0 := by
        simp only [List.length_append, List.length_cons, List.length_nil]
        omega
      have h2 : ¬ 1000 < (l ++ [a]).length := by
        simp only [List.length_append, List.length_cons, List.length_nil]
        omega
      rw [h0, List.drop_zero, h1, List.drop_zero, histAppend, if_neg h2]
    · have hk : (l.drop (l.length - 1000)).length = 1000 := by
        rw [List.length_drop]
        omega
      have hlen1 : (l.drop (l.length - 1000) ++ [a]).length = 1001 := by
        simp [hk]
      rw [histAppend, hlen1, if_pos (by omega)]
      have h1001 : (1001 : ℕ) - 1000 = 1 := rfl
      have hlen2 : (l ++ [a]).length = l.length + 1 := by simp
      rw [h1001, hlen2]
      rw [List.drop_append_eq_append_drop, List.drop_append_eq_append_drop]
      rw [hk, List.drop_drop]
      rw [show (1 : ℕ) - 1000 = 0 from rfl]
      rw [show l.length + 1 - 1000 - l.length = 0 from by omega]
      rw [show l.length + 1 - 1000 = l.length - 1000 + 1 from by omega]

/-- C5: after every `log_metrics` call History holds at most 1000 records, and
eviction is FIFO: a run of appends into an empty History keeps exactly the most
recent 1000 records in their original order (for 1050 appends, the oldest 50
are removed). -/
theorem log_metrics_history_bound (M : List HealthRecord) (m : HealthRecord)
    (rs : List HealthRecord) :
    ((log_metrics_step M m).1.length ≤ 1000) ∧
    (histAll [] rs = rs.drop (rs.length - 1000)) := by
  exact ⟨histAppend_length_le M m, histAll_eq_drop rs⟩

/-- Decoding inverts encoding on a single record. -/
theorem decodeRecord_encodeRecord (r : HealthRecord) :
    decodeRecord (encodeRecord r) = some r := by
  rcases r with ⟨t, lat, c, s, cat⟩
  cases lat <;> simp [encodeRecord, decodeRecord, Rat.den_intCast, Rat.num_intCast]

/-- Decoding inverts encoding element-wise on a whole History. -/
theorem decodeRecords_map_encodeRecord (l : List HealthRecord) :
    decodeRecords (l.map encodeRecord) = some l := by
  induction l with
  | nil => rfl
  | cons r rest ih => simp [decodeRecords, decodeRecord_encodeRecord, ih]

/-- C8: saving a History with `_save_history` and loading it into a fresh
instance with `_load_history` reproduces the identical ordered sequence of
records — serialise-then-deserialise is the identity on History. -/
theorem save_load_roundtrip (metrics : List HealthRecord) :
    load_history (some (save_history metrics)) = metrics := by
  simp [load_history, save_history, decodeRecords_map_encodeRecord]

/-- A saturated History stays at exactly 1000 records across an append. -/
theorem histAppend_length_saturated (M : List HealthRecord) (m : HealthRecord)
    (h : M.length = 1000) : (histAppend M m).length = 1000 := by
  have hlen : (M ++ [m]).length = 1001 := by simp [h]
  rw [histAppend, hlen, if_pos (by omega), List.length_drop, hlen]

set_option maxRecDepth 8000 in
/-- C9 counterexample: once History is saturated at 1000 records, the flush
condition `len(self.metrics) % 10 == 0` (checked after truncation) holds on
every call — here two consecutive appends both flush, so the flush is not
"exactly once per 10 appends". -/
theorem log_metrics_flush_counterexample :
    (log_metrics_step (List.replicate 1000 sampleRecord) sampleRecord).2 = true ∧
    (log_metrics_step
      (log_metrics_step (List.replicate 1000 sampleRecord) sampleRecord).1
      sampleRecord).2 = true := by
  have h1 : (histAppend (List.replicate 1000 sampleRecord) sampleRecord).length = 1000 :=
    histAppend_length_saturated _ _ (List.length_replicate 1000 sampleRecord)
  constructor
  · have e : (log_metrics_step (List.replicate 1000 sampleRecord) sampleRecord).2
        = ((histAppend (List.replicate 1000 sampleRecord) sampleRecord).length % 10 == 0) := rfl
    rw [e, h1]
    rfl
  · have e : (log_metrics_step (List.replicate 1000 sampleRecord) sampleRecord).1
        = histAppend (List.replicate 1000 sampleRecord) sampleRecord := rfl
    rw [e]
    have e2 : (log_metrics_step
        (histAppend (List.replicate 1000 sampleRecord) sampleRecord) sampleRecord).2
        = ((histAppend (histAppend (List.replicate 1000 sampleRecord) sampleRecord)
            sampleRecord).length % 10 == 0) := rfl
    rw [e2, histAppend_length_saturated _ sampleRecord h1]
    rfl

/-- C9 amended: every `log_metrics` call appends exactly one record (evicting
the oldest beyond the 1000 bound), and the flush fires iff the post-truncation
History length is divisible by 10 — which is every 10th append while the
History is below the cap, but every append once it is saturated at 1000. -/
theorem log_metrics_flush_amended (M : List HealthRecord) (m : HealthRecord) :
    ((log_metrics_step M m).1 = (M ++ [m]).drop ((M.length + 1) - 1000)) ∧
    ((log_metrics_step M m).2 = true ↔ (log_metrics_step M m).1.length % 10 = 0) ∧
    (M.length + 1 ≤ 1000 →
      (log_metrics_step M m).1 = M ++ [m] ∧
      ((log_metrics_step M m).2 = true ↔ (M.length + 1) % 10 = 0)) ∧
    (M.length = 1000 → (log_metrics_step M m).2 = true) := by
  have happ : (M ++ [m]).length = M.length + 1 := by simp
  have hstep : (log_metrics_step M m).1 = histAppend M m := rfl
  have hdrop : histAppend M m = (M ++ [m]).drop ((M.length + 1) - 1000) := by
    rw [histAppend, happ]
    by_cases h : 1000 < M.length + 1
    · rw [if_pos h]
    · rw [if_neg h, show M.length + 1 - 1000 = 0 from by omega, List.drop_zero]
  refine ⟨hstep.trans hdrop, by simp [log_metrics_step], ?_, ?_⟩
  · intro hle
    have h0 : M.length + 1 - 1000 = 0 := by omega
    refine ⟨(hstep.trans hdrop).trans (by rw [h0, List.drop_zero]), ?_⟩
    have hlen : (histAppend M m).length = M.length + 1 := by
      rw [hdrop, h0, List.drop_zero, happ]
    simp [log_metrics_step, hlen]
  · intro hsat
    have hlen : (histAppend M m).length = 1000 := histAppend_length_saturated M m hsat
    simp [log_metrics_step, hlen]

/-- C9 amended witness: the 10th append into a History of 9 records flushes. -/
theorem log_metrics_flush_amended_witness :
    ((List.replicate 9 sampleRecord).length + 1 ≤ 1000) ∧
    ((log_metrics_step (List.replicate 9 sampleRecord) sampleRecord).1 =
        List.replicate 9 sampleRecord ++ [sampleRecord] ∧
      ((log_metrics_step (List.replicate 9 sampleRecord) sampleRecord).2 = true ↔
        ((List.replicate 9 sampleRecord).length + 1) % 10 = 0)) := by
  exact ⟨by simp, (log_metrics_flush_amended (List.replicate 9 sampleRecord) sampleRecord).2.2.1
    (by simp)⟩

/-- C2: if zero of the 10 probes in a scoring burst succeed, `get_health_score`
short-circuits: score 0, lowest category "Desconectado", packet_loss 100, the
single no-connection alert, and `detailed=False` returns the bare integer 0. -/
theorem health_score_zero_success (results : List (Option ℚ)) (jitter : ℚ)
    (metrics : List HealthRecord) (_hlen : results.length = 10)
    (hfail : pingsOf results = []) :
    get_health_score results jitter metrics =
      { score := 0, category := "Desconectado", latency := none, packet_loss := 100,
        jitter := none, uptime := 0, pings_successful := 0, pings_total := ping_count,
        alerts := ["Sem conexão com a internet"] } ∧
    get_health_score_simple results jitter metrics = 0 := by
  have hB : (pingsOf results).isEmpty = true := by simp [hfail]
  refine ⟨by simp [get_health_score, hB], ?_⟩
  simp [get_health_score_simple, get_health_score, hB]

/-- Latency sub-score ladder values. -/
theorem latency_score_mem (a : ℚ) :
    latency_score a ∈ ([100, 90, 70, 50, 30, 10] : List ℤ) := by
  unfold latency_score
  split_ifs <;> simp

/-- Latency sub-score bounds. -/
theorem latency_score_bounds (a : ℚ) : 10 ≤ latency_score a ∧ latency_score a ≤ 100 := by
  unfold latency_score
  split_ifs <;> norm_num

/-- Packet-loss sub-score ladder values. -/
theorem packet_loss_score_mem (p : ℚ) :
    packet_loss_score p ∈ ([100, 95, 80, 60, 40, 20] : List ℤ) := by
  unfold packet_loss_score
  split_ifs <;> simp

/-- Packet-loss sub-score bounds. -/
theorem packet_loss_score_bounds (p : ℚ) :
    20 ≤ packet_loss_score p ∧ packet_loss_score p ≤ 100 := by
  unfold packet_loss_score
  split_ifs <;> norm_num

/-- Jitter sub-score ladder values. -/
theorem jitter_score_mem (j : ℚ) :
    jitter_score j ∈ ([100, 90, 70, 50, 30, 10] : List ℤ) := by
  unfold jitter_score
  split_ifs <;> simp

/-- Jitter sub-score bounds. -/
theorem jitter_score_bounds (j : ℚ) : 10 ≤ jitter_score j ∧ jitter_score j ≤ 100 := by
  unfold jitter_score
  split_ifs <;> norm_num

/-- Uptime sub-score ladder values. -/
theorem uptime_score_mem (u : ℚ) :
    uptime_score u ∈ ([100, 85, 70, 50, 30] : List ℤ) := by
  unfold uptime_score
  split_ifs <;> simp

/-- Uptime sub-score bounds. -/
theorem uptime_score_bounds (u : ℚ) : 30 ≤ uptime_score u ∧ uptime_score u ≤ 100 := by
  unfold uptime_score
  split_ifs <;> norm_num

/-- C1: for every burst with at least one success, the final score is the floor
of `0.4·latency + 0.3·loss + 0.2·jitter + 0.1·uptime` over the fixed breakpoint
ladders, each sub-score drawn from its ladder's value set, and the result lies
in [0, 100]. -/
theorem health_score_formula_and_bounds (results : List (Option ℚ)) (jitter : ℚ)
    (metrics : List HealthRecord) (_hlen : results.length = 10)
    (hne : pingsOf results ≠ []) (_hj : JitterOf (pingsOf results) jitter) :
    ((get_health_score results jitter metrics).score =
      Int.floor ((latency_score (listMean (pingsOf results)) : ℚ) * 0.4
        + (packet_loss_score ((((ping_count : ℚ) - ((pingsOf results).length : ℚ))
            / (ping_count : ℚ)) * 100) : ℚ) * 0.3
        + (jitter_score (if 1 < (pingsOf results).length then jitter else 0) : ℚ) * 0.2
        + (uptime_subscore metrics : ℚ) * 0.1)) ∧
    0 ≤ (get_health_score results jitter metrics).score ∧
    (get_health_score results jitter metrics).score ≤ 100 ∧
    ping_count = 10 ∧
    latency_score (listMean (pingsOf results)) ∈ ([100, 90, 70, 50, 30, 10] : List ℤ) ∧
    packet_loss_score ((((ping_count : ℚ) - ((pingsOf results).length : ℚ))
        / (ping_count : ℚ)) * 100) ∈ ([100, 95, 80, 60, 40, 20] : List ℤ) ∧
    jitter_score (if 1 < (pingsOf results).length then jitter else 0)
        ∈ ([100, 90, 70, 50, 30, 10] : List ℤ) ∧
    uptime_subscore metrics ∈ ([100, 85, 70, 50, 30] : List ℤ) := by
  have hB : (pingsOf results).isEmpty = false := by
    rw [List.isEmpty_eq_false]
    exact hne
  have hscore : (get_health_score results jitter metrics).score =
      Int.floor ((latency_score (listMean (pingsOf results)) : ℚ) * 0.4
        + (packet_loss_score ((((ping_count : ℚ) - ((pingsOf results).length : ℚ))
            / (ping_count : ℚ)) * 100) : ℚ) * 0.3
        + (jitter_score (if 1 < (pingsOf results).length then jitter else 0) : ℚ) * 0.2
        + (uptime_subscore metrics : ℚ) * 0.1) := by
    simp only [get_health_score, hB, Bool.false_eq_true, if_false]
  obtain ⟨hL1, hL2⟩ := latency_score_bounds (listMean (pingsOf results))
  obtain ⟨hP1, hP2⟩ := packet_loss_score_bounds
    ((((ping_count : ℚ) - ((pingsOf results).length : ℚ)) / (ping_count : ℚ)) * 100)
  obtain ⟨hJ1, hJ2⟩ := jitter_score_bounds (if 1 < (pingsOf results).length then jitter else 0)
  have hU : 30 ≤ uptime_subscore metrics ∧ uptime_subscore metrics ≤ 100 := by
    unfold uptime_subscore
    split
    · norm_num
    · exact uptime_score_bounds _
  obtain ⟨hU1, hU2⟩ := hU
  have hL1q : (10 : ℚ) ≤ (latency_score (listMean (pingsOf results)) : ℚ) := by exact_mod_cast hL1
  have hL2q : (latency_score (listMean (pingsOf results)) : ℚ) ≤ 100 := by exact_mod_cast hL2
  have hP1q : (20 : ℚ) ≤ (packet_loss_score ((((ping_count : ℚ) - ((pingsOf results).length : ℚ))
      / (ping_count : ℚ)) * 100) : ℚ) := by exact_mod_cast hP1
  have hP2q : (packet_loss_score ((((ping_count : ℚ) - ((pingsOf results).length : ℚ))
      / (ping_count : ℚ)) * 100) : ℚ) ≤ 100 := by exact_mod_cast hP2
  have hJ1q : (10 : ℚ) ≤ (jitter_score (if 1 < (pingsOf results).length then jitter else 0) : ℚ) := by
    exact_mod_cast hJ1
  have hJ2q : (jitter_score (if 1 < (pingsOf results).length then jitter else 0) : ℚ) ≤ 100 := by
    exact_mod_cast hJ2
  have hU1q : (30 : ℚ) ≤ (uptime_subscore metrics : ℚ) := by exact_mod_cast hU1
  have hU2q : (uptime_subscore metrics : ℚ) ≤ 100 := by exact_mod_cast hU2
  refine ⟨hscore, ?_, ?_, rfl, latency_score_mem _, packet_loss_score_mem _,
    jitter_score_mem _, ?_⟩
  · rw [hscore]
    apply Int.le_floor.mpr
    rw [Int.cast_zero]
    linarith
  · rw [hscore]
    have hle : (latency_score (listMean (pingsOf results)) : ℚ) * 0.4
        + (packet_loss_score ((((ping_count : ℚ) - ((pingsOf results).length : ℚ))
            / (ping_count : ℚ)) * 100) : ℚ) * 0.3
        + (jitter_score (if 1 < (pingsOf results).length then jitter else 0) : ℚ) * 0.2
        + (uptime_subscore metrics : ℚ) * 0.1 ≤ 100 := by linarith
    calc Int.floor ((latency_score (listMean (pingsOf results)) : ℚ) * 0.4
        + (packet_loss_score ((((ping_count : ℚ) - ((pingsOf results).length : ℚ))
            / (ping_count : ℚ)) * 100) : ℚ) * 0.3
        + (jitter_score (if 1 < (pingsOf results).length then jitter else 0) : ℚ) * 0.2
        + (uptime_subscore metrics : ℚ) * 0.1) ≤ Int.floor ((100 : ℚ)) :=
          Int.floor_le_floor hle
      _ = 100 := by norm_num
  · unfold uptime_subscore
    split
    · simp
    · exact uptime_score_mem _

/-- C1 witness: ten 30 ms samples give sub-scores 90/100/100/100 and final
score `⌊0.4·90 + 0.3·100 + 0.2·100 + 0.1·100⌋ = 96`, inside [0, 100]. -/
theorem health_score_formula_witness :
    burstAllOk.length = 10 ∧ pingsOf burstAllOk ≠ [] ∧ JitterOf (pingsOf burstAllOk) 0 ∧
    (get_health_score burstAllOk 0 []).score = 96 ∧
    0 ≤ (get_health_score burstAllOk 0 []).score ∧
    (get_health_score burstAllOk 0 []).score ≤ 100 := by
  have h1 : burstAllOk.length = 10 := rfl
  have hp : pingsOf burstAllOk = [30, 30, 30, 30, 30, 30, 30, 30, 30, 30] := rfl
  have h2 : pingsOf burstAllOk ≠ [] := by rw [hp]; simp
  have h3 : JitterOf (pingsOf burstAllOk) 0 := by
    rw [JitterOf, hp]
    rw [if_pos (by norm_num)]
    refine ⟨le_refl 0, ?_⟩
    norm_num [sampleVariance, listMean]
  obtain ⟨hf, hb1, hb2, _⟩ := health_score_formula_and_bounds burstAllOk 0 [] h1 h2 h3
  refine ⟨h1, h2, h3, ?_, hb1, hb2⟩
  rw [hf, hp]
  norm_num [listMean, latency_score, packet_loss_score, jitter_score, ping_count,
    uptime_subscore, List.isEmpty]

/-- C6 counterexample: the source collects latencies with a Python truthiness
test, dropping records whose latency is exactly 0.  On a History with ten
nonzero latencies and one zero latency, the code sees only 10 samples (≤ 10, so
`latency_cv = 0`, stability 100), while the claim's reading ("last 100 records
that have a latency") yields 11 samples with cv = 40% and stability 60. -/
theorem stability_cv_filter_counterexample :
    truthyLatencies stabilityMetricsExample = [16, 6, 11, 11, 11, 11, 11, 11, 11, 11] ∧
    presentLatencies stabilityMetricsExample = [16, 6, 11, 11, 11, 11, 11, 11, 11, 11, 0] ∧
    CvOf (truthyLatencies stabilityMetricsExample) 0 ∧
    (get_connection_stability stabilityMetricsExample initialConnectionState
      0).stability_score = 100 ∧
    CvOf (presentLatencies stabilityMetricsExample) 40 ∧
    (get_connection_stability stabilityMetricsExample initialConnectionState
      40).stability_score = 60 ∧
    (100 : ℤ) ≠ 60 := by
  have htr : truthyLatencies stabilityMetricsExample =
      [16, 6, 11, 11, 11, 11, 11, 11, 11, 11] := by
    norm_num [truthyLatencies, stabilityMetricsExample, List.filterMap_cons]
  have hpr : presentLatencies stabilityMetricsExample =
      [16, 6, 11, 11, 11, 11, 11, 11, 11, 11, 0] := by
    norm_num [presentLatencies, stabilityMetricsExample, List.filterMap_cons]
  refine ⟨htr, hpr, ?_, ?_, ?_, ?_, by norm_num⟩
  · rw [htr]
    simp [CvOf]
  · norm_num [get_connection_stability, stabilityMetricsExample, initialConnectionState]
  · rw [hpr]
    rw [CvOf, if_pos (by norm_num)]
    rw [if_pos (by norm_num [listMean])]
    refine ⟨by norm_num, ?_⟩
    norm_num [sampleVariance, listMean]
  · norm_num [get_connection_stability, stabilityMetricsExample, initialConnectionState]

set_option linter.unnecessarySeqFocus false in
/-- C6 amended: `get_connection_stability` returns the neutral report on an
empty History; otherwise it reports `disconnect_count`, the rounded downtime
and cv, and maps `(disconnect_count, latency_cv)` through the fixed ladder —
where `latency_cv` is `stdev/mean·100` over the latencies of the last 100
records whose latency is present AND nonzero (Python truthiness), and 0 when 10
or fewer such samples exist or the mean is not positive. -/
theorem stability_report_amended (metrics : List HealthRecord) (cs : ConnectionState)
    (c : ℚ) (hc : CvOf (truthyLatencies metrics) c) :
    (metrics = [] →
      get_connection_stability metrics cs c =
        { stability_score := 100, disconnect_events := 0, total_downtime := 0,
          latency_variability := 0, recommendation := "Sem dados históricos ainda" }) ∧
    (metrics ≠ [] →
      (get_connection_stability metrics cs c).stability_score =
        (if cs.disconnect_count = 0 ∧ c < 20 then 100
         else if cs.disconnect_count < 3 ∧ c < 40 then 80
         else if cs.disconnect_count < 5 ∧ c < 60 then 60 else 40) ∧
      (get_connection_stability metrics cs c).disconnect_events = cs.disconnect_count ∧
      (get_connection_stability metrics cs c).total_downtime = round2 cs.total_downtime ∧
      (get_connection_stability metrics cs c).latency_variability = round2 c) ∧
    ((truthyLatencies metrics).length ≤ 10 → c = 0) ∧
    (10 < (truthyLatencies metrics).length → 0 < listMean (truthyLatencies metrics) →
      0 ≤ c ∧ c ^ 2 = sampleVariance (truthyLatencies metrics)
        / (listMean (truthyLatencies metrics)) ^ 2 * 10000) := by
  refine ⟨?_, ?_, ?_, ?_⟩
  · intro h
    subst h
    simp [get_connection_stability]
  · intro h
    have hB : metrics.isEmpty = false := by
      rw [List.isEmpty_eq_false]
      exact h
    refine ⟨?_, ?_, ?_, ?_⟩ <;>
      simp only [get_connection_stability, hB, Bool.false_eq_true, if_false] <;>
      (try split_ifs) <;> rfl
  · intro hle
    by_cases h10 : 10 < (truthyLatencies metrics).length
    · omega
    · rwa [CvOf, if_neg h10] at hc
  · intro h10 hm
    rw [CvOf, if_pos h10, if_pos hm] at hc
    exact hc

/-- C6 amended witness: the empty History gives the neutral report under a
zero cv, and a one-record History with no latency maps (0 disconnects, cv 0)
to stability 100. -/
theorem stability_report_amended_witness :
    CvOf (truthyLatencies ([] : List HealthRecord)) 0 ∧
    get_connection_stability [] initialConnectionState 0 =
      { stability_score := 100, disconnect_events := 0, total_downtime := 0,
        latency_variability := 0, recommendation := "Sem dados históricos ainda" } ∧
    CvOf (truthyLatencies [sampleRecord]) 0 ∧
    (get_connection_stability [sampleRecord] initialConnectionState 0).stability_score
      = 100 := by
  have hcv : CvOf (truthyLatencies ([] : List HealthRecord)) 0 := by
    simp [CvOf, truthyLatencies]
  have hcv2 : CvOf (truthyLatencies [sampleRecord]) 0 := by
    simp [CvOf, truthyLatencies, sampleRecord]
  refine ⟨hcv, (stability_report_amended [] initialConnectionState 0 hcv).1 rfl, hcv2, ?_⟩
  have h := ((stability_report_amended [sampleRecord] initialConnectionState 0 hcv2).2.1
    (by simp)).1
  rw [h]
  norm_num [initialConnectionState]

/-- A list has no minimum exactly when it is empty. -/
theorem listMin_eq_none_iff (l : List ℚ) : listMin l = none ↔ l = [] := by
  cases l <;> simp [listMin]

/-- Cons step of `listMin` when the tail is empty of minima. -/
theorem listMin_cons_none {x : ℚ} {xs : List ℚ} (h : listMin xs = none) :
    listMin (x :: xs) = some x := by
  rw [listMin, h]

/-- Cons step of `listMin` when the tail has a minimum. -/
theorem listMin_cons_some {x mx : ℚ} {xs : List ℚ} (h : listMin xs = some mx) :
    listMin (x :: xs) = some (min x mx) := by
  rw [listMin, h]

/-- The minimum is an element of the list. -/
theorem listMin_mem : ∀ {l : List ℚ} {m : ℚ}, listMin l = some m → m ∈ l := by
  intro l
  induction l with
  | nil => intro m h; simp [listMin] at h
  | cons x xs ih =>
    intro m h
    cases hx : listMin xs with
    | none =>
      rw [listMin_cons_none hx] at h
      injection h with h
      exact List.mem_cons.mpr (Or.inl h.symm)
    | some mx =>
      rw [listMin_cons_some hx] at h
      injection h with h
      rcases le_total x mx with hle | hle
      · rw [min_eq_left hle] at h
        exact List.mem_cons.mpr (Or.inl h.symm)
      · rw [min_eq_right hle] at h
        subst h
        exact List.mem_cons.mpr (Or.inr (ih hx))

/-- The minimum is a lower bound of the list. -/
theorem listMin_le : ∀ {l : List ℚ} {m : ℚ}, listMin l = some m → ∀ y ∈ l, m ≤ y := by
  intro l
  induction l with
  | nil => intro m _ y hy; simp at hy
  | cons x xs ih =>
    intro m h y hy
    rcases List.mem_cons.mp hy with hyx | hyxs
    · subst hyx
      cases hx : listMin xs with
      | none =>
        rw [listMin_cons_none hx] at h
        injection h with h
        exact le_of_eq h.symm
      | some mx =>
        rw [listMin_cons_some hx] at h
        injection h with h
        calc m = min y mx := h.symm
          _ ≤ y := min_le_left y mx
    · cases hx : listMin xs with
      | none =>
        have hnil : xs = [] := (listMin_eq_none_iff xs).mp hx
        subst hnil
        simp at hyxs
      | some mx =>
        rw [listMin_cons_some hx] at h
        injection h with h
        calc m = min x mx := h.symm
          _ ≤ mx := min_le_right x mx
          _ ≤ y := ih hx y hyxs

/-- When `m` occurs among the successful latencies, the first fan-out entry
carrying latency `m` exists. -/
theorem find?_of_mem_successLats {rs : List (String × Option ℚ)} {m : ℚ}
    (h : m ∈ successLats rs) :
    ∃ p, rs.find? (fun p => p.2 == some m) = some p := by
  obtain ⟨a, ha, hae⟩ := List.mem_filterMap.mp h
  have hsome : (rs.find? (fun p => p.2 == some m)).isSome := by
    rw [List.find?_isSome]
    exact ⟨a, ha, by simp [hae]⟩
  exact Option.isSome_iff_exists.mp hsome

/-- Closed form of the fan-out loop started from an already-seen best `(bh, bl)`:
the result is the first entry achieving the minimum successful latency when that
minimum beats `bl`, the accumulator otherwise. -/
theorem selectFastestGo_some (rs : List (String × Option ℚ)) :
    ∀ (bh : String) (bl : ℚ),
      selectFastestGo (some (bh, bl)) rs =
        match listMin (successLats rs) with
        | none => some (bh, bl)
        | some m =>
          if m < bl then
            match rs.find? (fun p => p.2 == some m) with
            | some p => some (p.1, m)
            | none => some (bh, bl)
          else some (bh, bl) := by
  induction rs with
  | nil =>
    intro bh bl
    simp [selectFastestGo, successLats, listMin]
  | cons hd rest ih =>
    intro bh bl
    obtain ⟨h, res⟩ := hd
    cases res with
    | none =>
      rw [show selectFastestGo (some (bh, bl)) ((h, none) :: rest) =
          selectFastestGo (some (bh, bl)) rest from rfl, ih]
      have hs : successLats ((h, none) :: rest) = successLats rest := by
        simp [successLats]
      have hf : ∀ m : ℚ, ((h, none) :: rest).find? (fun p => p.2 == some m) =
          rest.find? (fun p => p.2 == some m) := by
        intro m
        rw [List.find?_cons_of_neg]
        simp
      simp only [hs, hf]
    | some l =>
      rw [show selectFastestGo (some (bh, bl)) ((h, some l) :: rest) =
          (if l < bl then selectFastestGo (some (h, l)) rest
           else selectFastestGo (some (bh, bl)) rest) from rfl]
      have hs : successLats ((h, some l) :: rest) = l :: successLats rest := by
        simp [successLats]
      rw [hs]
      cases hmr : listMin (successLats rest) with
      | none =>
        rw [listMin_cons_none hmr]
        by_cases hlb : l < bl
        · rw [if_pos hlb, ih, hmr]
          simp [List.find?_cons, hlb]
        · rw [if_neg hlb, ih, hmr]
          simp [hlb]
      | some mr =>
        rw [listMin_cons_some hmr]
        by_cases hlb : l < bl
        · rw [if_pos hlb, ih, hmr]
          by_cases hml : mr < l
          · have hmin : min l mr = mr := min_eq_right (le_of_lt hml)
            have hmb : mr < bl := lt_trans hml hlb
            obtain ⟨p, hp⟩ := find?_of_mem_successLats (listMin_mem hmr)
            rw [hmin]
            simp [List.find?_cons, hml, hmb, hp, hml.ne']
          · have hmin : min l mr = l := min_eq_left (le_of_not_lt hml)
            rw [hmin]
            simp [List.find?_cons, hml, hlb]
        · rw [if_neg hlb, ih, hmr]
          have hbl_le : bl ≤ l := le_of_not_lt hlb
          by_cases hmb : mr < bl
          · have hml : mr < l := lt_of_lt_of_le hmb hbl_le
            have hmin : min l mr = mr := min_eq_right (le_of_lt hml)
            obtain ⟨p, hp⟩ := find?_of_mem_successLats (listMin_mem hmr)
            rw [hmin]
            simp [List.find?_cons, hmb, hp, hml.ne']
          · have hminlt : ¬ min l mr < bl := by
              rw [not_lt] at hmb ⊢
              exact le_min hbl_le hmb
            simp [hmb, hminlt]

/-- The fan-out loop computes exactly the claim's first-minimum target. -/
theorem selectFastest_eq_firstMinTarget (rs : List (String × Option ℚ)) :
    selectFastest rs = firstMinTarget rs := by
  induction rs with
  | nil => rfl
  | cons hd rest ih =>
    obtain ⟨h, res⟩ := hd
    cases res with
    | none =>
      rw [show selectFastest ((h, none) :: rest) = selectFastest rest from rfl, ih]
      have hs : successLats ((h, none) :: rest) = successLats rest := by
        simp [successLats]
      have hf : ∀ m : ℚ, ((h, none) :: rest).find? (fun p => p.2 == some m) =
          rest.find? (fun p => p.2 == some m) := by
        intro m
        rw [List.find?_cons_of_neg]
        simp
      rw [firstMinTarget, firstMinTarget]
      simp only [hs, hf]
    | some l =>
      rw [show selectFastest ((h, some l) :: rest) =
          selectFastestGo (some (h, l)) rest from rfl]
      rw [selectFastestGo_some rest h l, firstMinTarget]
      have hs : successLats ((h, some l) :: rest) = l :: successLats rest := by
        simp [successLats]
      rw [hs]
      cases hmr : listMin (successLats rest) with
      | none =>
        rw [listMin_cons_none hmr]
        simp [List.find?_cons]
      | some mr =>
        rw [listMin_cons_some hmr]
        by_cases hml : mr < l
        · have hmin : min l mr = mr := min_eq_right (le_of_lt hml)
          obtain ⟨p, hp⟩ := find?_of_mem_successLats (listMin_mem hmr)
          rw [hmin]
          simp [List.find?_cons, hml, hp, hml.ne']
        · have hmin : min l mr = l := min_eq_left (le_of_not_lt hml)
          rw [hmin]
          simp [List.find?_cons, hml]

/-- The fan-out finds a target exactly when some probe succeeded. -/
theorem selectFastest_isSome_iff (rs : List (String × Option ℚ)) :
    (selectFastest rs).isSome = true ↔ successLats rs ≠ [] := by
  rw [selectFastest_eq_firstMinTarget, firstMinTarget]
  cases hm : listMin (successLats rs) with
  | none =>
    have : successLats rs = [] := (listMin_eq_none_iff _).mp hm
    simp [this]
  | some m =>
    obtain ⟨p, hp⟩ := find?_of_mem_successLats (listMin_mem hm)
    simp only [hp, Option.isSome_some, true_iff]
    exact List.ne_nil_of_mem (listMin_mem hm)

/-- C7: `check_connectivity` reports connected iff at least one probe
succeeded, and the fastest target is the entry whose successful probe has the
minimum latency, ties resolved in favour of the first minimum in completion
order (`firstMinTarget`); on the claim's example {A: 50 ms, B: 20 ms, C: fail}
it returns `(true, B)`. -/
theorem check_connectivity_fastest_target (st : ConnectionState)
    (rs : List (String × Option ℚ)) (now : ℚ) :
    ((check_connectivity st rs now).1 = true ↔ ∃ p ∈ rs, p.2 ≠ none) ∧
    ((check_connectivity st rs now).2.1 = (firstMinTarget rs).map Prod.fst) ∧
    (selectFastest rs = firstMinTarget rs) ∧
    (∀ m, listMin (successLats rs) = some m →
      m ∈ successLats rs ∧ ∀ x ∈ successLats rs, m ≤ x) ∧
    ((check_connectivity st [("A", some 50), ("B", some 20), ("C", none)] now).1 = true ∧
     (check_connectivity st [("A", some 50), ("B", some 20), ("C", none)] now).2.1
       = some "B") := by
  refine ⟨?_, ?_, selectFastest_eq_firstMinTarget rs, ?_, ?_, ?_⟩
  · have h1 : (check_connectivity st rs now).1 = (selectFastest rs).isSome := rfl
    rw [h1, selectFastest_isSome_iff]
    rw [Ne, successLats, List.filterMap_eq_nil_iff]
    push_neg
    constructor
    · rintro ⟨a, ha, hne⟩
      exact ⟨a, ha, by simpa [Option.isSome_iff_ne_none] using hne⟩
    · rintro ⟨a, ha, hne⟩
      exact ⟨a, ha, by simpa [Option.isSome_iff_ne_none] using hne⟩
  · have h2 : (check_connectivity st rs now).2.1 = (selectFastest rs).map Prod.fst := rfl
    rw [h2, selectFastest_eq_firstMinTarget]
  · intro m hm
    exact ⟨listMin_mem hm, listMin_le hm⟩
  · norm_num [check_connectivity, selectFastest, selectFastestGo]
  · norm_num [check_connectivity, selectFastest, selectFastestGo]

/-- Successful pings of an all-fail burst. -/
theorem pingsOf_replicate_none (n : ℕ) : pingsOf (List.replicate n none) = [] := by
  induction n with
  | zero => rfl
  | succ m ih => simp [List.replicate_succ, pingsOf, List.filterMap_cons, ih]

/-- Successful pings of an all-equal burst. -/
theorem pingsOf_replicate_some (n : ℕ) (v : ℚ) :
    pingsOf (List.replicate n (some v)) = List.replicate n v := by
  induction n with
  | zero => rfl
  | succ m ih => simp [List.replicate_succ, pingsOf, List.filterMap_cons, ih]

/-- Zero-success branch of `get_health_score`, as a record equation. -/
theorem get_health_score_of_no_pings {results : List (Option ℚ)} (jitter : ℚ)
    (metrics : List HealthRecord) (h : pingsOf results = []) :
    get_health_score results jitter metrics =
      { score := 0, category := "Desconectado", latency := none, packet_loss := 100,
        jitter := none, uptime := 0, pings_successful := 0, pings_total := ping_count,
        alerts := ["Sem conexão com a internet"] } := by
  have hB : (pingsOf results).isEmpty = true := by simp [h]
  simp [get_health_score, hB]

/-- Packet-loss field of `get_health_score` when at least one probe succeeded. -/
theorem get_health_score_packet_loss_eq {results : List (Option ℚ)} (jitter : ℚ)
    (metrics : List HealthRecord) (h : (pingsOf results).isEmpty = false) :
    (get_health_score results jitter metrics).packet_loss =
      round2 ((((ping_count : ℚ) - ((pingsOf results).length : ℚ)) / (ping_count : ℚ))
        * 100) := by
  simp only [get_health_score, h, Bool.false_eq_true, if_false]

/-- Mean of a constant list. -/
theorem listMean_replicate {n : ℕ} (hn : n ≠ 0) (v : ℚ) :
    listMean (List.replicate n v) = v := by
  rw [listMean, List.sum_replicate, List.length_replicate, nsmul_eq_mul]
  exact mul_div_cancel_left₀ v (Nat.cast_ne_zero.mpr hn)

/-- Sample variance of a constant list is zero. -/
theorem sampleVariance_replicate (n : ℕ) (v : ℚ) :
    sampleVariance (List.replicate n v) = 0 := by
  cases n with
  | zero => simp [sampleVariance]
  | succ m =>
    rw [sampleVariance, listMean_replicate (Nat.succ_ne_zero m) v]
    simp [List.map_replicate, List.sum_replicate]

/-- A jitter value for a constant (or empty) sample list is zero. -/
theorem jitterOf_replicate_eq_zero {n : ℕ} {v j : ℚ}
    (hj : JitterOf (List.replicate n v) j) : j = 0 := by
  rw [JitterOf] at hj
  split at hj
  · obtain ⟨h0, hsq⟩ := hj
    rw [List.length_replicate] at *
    rw [sampleVariance_replicate] at hsq
    exact sq_eq_zero_iff.mp hsq
  · exact hj

/-- Burst tail invariant: once the cache was populated at time `t0` with result
`r0`, every later call within the 2 s window is a cache hit returning `r0` and
leaving the cache untouched. -/
theorem burst_foldl_cached (rest : List (ℚ × ProbeOutcome)) :
    ∀ (t0 : ℚ) (r0 : Option ℚ) (acc : List (Option ℚ)),
      (∀ e ∈ rest, t0 ≤ e.1 ∧ e.1 - t0 < cache_duration) →
      List.foldl runBurstStep (⟨some t0, r0⟩, acc) rest =
        (⟨some t0, r0⟩, acc ++ List.replicate rest.length r0) := by
  induction rest with
  | nil =>
    intro t0 r0 acc _
    simp
  | cons e rest ih =>
    intro t0 r0 acc h
    obtain ⟨_, hw⟩ := h e (List.mem_cons_self e rest)
    have hhit : check_cache "8.8.8.8" ⟨some t0, r0⟩ e.1 = true := by
      simp [check_cache]
      exact hw
    have hstep : runBurstStep (⟨some t0, r0⟩, acc) e = (⟨some t0, r0⟩, acc ++ [r0]) := by
      simp [runBurstStep, ping_test, hhit]
    rw [List.foldl_cons, hstep,
      ih t0 r0 (acc ++ [r0]) (fun x hx => h x (List.mem_cons_of_mem e hx))]
    simp [List.replicate_succ]

/-- C10 amended: when the burst starts with no valid cache entry (empty or
expired) and the first probe attempt completes through an outcome-recording
path (not the exception paths that skip `_update_cache`), the first call
populates the slot and every later call within the 2 s window returns that same
cached value (a cached failure included); hence all results are equal, jitter
is 0, and on a 10-probe burst packet loss is 0 or 100. -/
theorem burst_fresh_cache_uniform (c : Cache) (t0 : ℚ) (p0 : ProbeOutcome)
    (rest : List (ℚ × ProbeOutcome)) (hmiss : check_cache "8.8.8.8" c t0 = false)
    (hrec : p0 ≠ ProbeOutcome.error)
    (hwin : ∀ e ∈ rest, t0 ≤ e.1 ∧ e.1 - t0 < cache_duration) :
    ((runBurst c ((t0, p0) :: rest)).2 = List.replicate (rest.length + 1) (probeResult p0)) ∧
    (∀ j, JitterOf (pingsOf (List.replicate (rest.length + 1) (probeResult p0))) j → j = 0) ∧
    (rest.length + 1 = 10 → ∀ j metrics,
      (get_health_score (List.replicate 10 (probeResult p0)) j metrics).packet_loss = 0 ∨
      (get_health_score (List.replicate 10 (probeResult p0)) j metrics).packet_loss
        = 100) := by
  have hburst : (runBurst c ((t0, p0) :: rest)).2 =
      List.replicate (rest.length + 1) (probeResult p0) := by
    rw [runBurst, List.foldl_cons]
    have hstep : runBurstStep (c, []) (t0, p0) =
        (⟨some t0, probeResult p0⟩, [probeResult p0]) := by
      cases p0 with
      | latency v => simp [runBurstStep, ping_test, hmiss, update_cache, probeResult]
      | failed => simp [runBurstStep, ping_test, hmiss, update_cache, probeResult]
      | error => exact absurd rfl hrec
    rw [hstep, burst_foldl_cached rest t0 (probeResult p0) [probeResult p0] hwin]
    simp [List.replicate_succ]
  refine ⟨hburst, ?_, ?_⟩
  · intro j hj
    cases hq : probeResult p0 with
    | none =>
      rw [hq, pingsOf_replicate_none] at hj
      rw [show ([] : List ℚ) = List.replicate 0 0 from rfl] at hj
      exact jitterOf_replicate_eq_zero hj
    | some v =>
      rw [hq, pingsOf_replicate_some] at hj
      exact jitterOf_replicate_eq_zero hj
  · intro _ j metrics
    cases hq : probeResult p0 with
    | none =>
      right
      rw [get_health_score_of_no_pings j metrics (pingsOf_replicate_none 10)]
    | some v =>
      left
      have hp : pingsOf (List.replicate 10 (some v)) = List.replicate 10 v :=
        pingsOf_replicate_some 10 v
      have hB : (pingsOf (List.replicate 10 (some v))).isEmpty = false := by
        rw [hp]
        simp
      rw [get_health_score_packet_loss_eq j metrics hB, hp, List.length_replicate]
      norm_num [ping_count, round2, roundHalfEven]

/-- C10 amended witness: a fresh cache, a first probe at t = 0 answering 30 ms
(an outcome-recording path), and nine cache-hit calls 50 ms apart produce ten
identical 30 ms results. -/
theorem burst_fresh_cache_uniform_witness :
    check_cache "8.8.8.8" ⟨none, none⟩ 0 = false ∧
    ProbeOutcome.latency 30 ≠ ProbeOutcome.error ∧
    (∀ e ∈ burstFreshRest, (0 : ℚ) ≤ e.1 ∧ e.1 - 0 < cache_duration) ∧
    (runBurst ⟨none, none⟩ ((0, ProbeOutcome.latency 30) :: burstFreshRest)).2 =
      List.replicate (burstFreshRest.length + 1) (some 30) := by
  have h1 : check_cache "8.8.8.8" ⟨none, none⟩ 0 = false := rfl
  have hr : ProbeOutcome.latency 30 ≠ ProbeOutcome.error :=
    fun h => ProbeOutcome.noConfusion h
  have h2 : ∀ e ∈ burstFreshRest, (0 : ℚ) ≤ e.1 ∧ e.1 - 0 < cache_duration := by
    intro e he
    fin_cases he <;> norm_num [cache_duration]
  exact ⟨h1, hr, h2,
    (burst_fresh_cache_uniform ⟨none, none⟩ 0 (ProbeOutcome.latency 30) burstFreshRest
      h1 hr h2).1⟩

/-- C10 counterexample, in two scenarios.  First, a still-valid cached failure
from t = 0 serves the first two calls of a burst beginning at t = 1.9; it
expires at t = 2.0 where a probe succeeds with 30 ms, and the remaining calls
return that cached success: samples are not all equal and packet loss is 20%.
Second, a burst starting with an empty cache whose first probe attempt raises
(exception path, `_update_cache` skipped) mixes that failure with nine fresh
30 ms successes: packet loss 10%.  In both, packet loss is neither 0 nor 100. -/
theorem burst_stale_cache_counterexample :
    (runBurst ⟨some 0, none⟩ burstCalls).2 =
      [none, none, some 30, some 30, some 30, some 30, some 30, some 30,
       some 30, some 30] ∧
    JitterOf (pingsOf [none, none, some 30, some 30, some 30, some 30, some 30,
      some 30, some 30, some 30]) 0 ∧
    (get_health_score [none, none, some 30, some 30, some 30, some 30, some 30,
      some 30, some 30, some 30] 0 []).packet_loss = 20 ∧
    (20 : ℚ) ≠ 0 ∧ (20 : ℚ) ≠ 100 ∧
    (runBurst ⟨none, none⟩ burstErrorCalls).2 =
      [none, some 30, some 30, some 30, some 30, some 30, some 30, some 30,
       some 30, some 30] ∧
    (get_health_score [none, some 30, some 30, some 30, some 30, some 30, some 30,
      some 30, some 30, some 30] 0 []).packet_loss = 10 ∧
    (10 : ℚ) ≠ 0 ∧ (10 : ℚ) ≠ 100 := by
  refine ⟨?_, ?_, ?_, by norm_num, by norm_num, ?_, ?_, by norm_num, by norm_num⟩
  · norm_num [runBurst, burstCalls, runBurstStep, ping_test, check_cache, update_cache,
      cache_duration, List.foldl_cons]
  · have hp : pingsOf [none, none, some 30, some 30, some 30, some 30, some 30,
        some 30, some 30, some (30 : ℚ)] = List.replicate 8 30 := by
      simp [pingsOf, List.filterMap_cons]
    rw [JitterOf, hp]
    rw [if_pos (by simp)]
    exact ⟨le_refl 0, by rw [sampleVariance_replicate]; norm_num⟩
  · have hp : pingsOf [none, none, some 30, some 30, some 30, some 30, some 30,
        some 30, some 30, some (30 : ℚ)] = List.replicate 8 30 := by
      simp [pingsOf, List.filterMap_cons]
    have hB : (pingsOf [none, none, some 30, some 30, some 30, some 30, some 30,
        some 30, some 30, some (30 : ℚ)]).isEmpty = false := by
      rw [hp]
      simp
    rw [get_health_score_packet_loss_eq 0 [] hB, hp, List.length_replicate]
    norm_num [ping_count, round2, roundHalfEven]
  · norm_num [runBurst, burstErrorCalls, runBurstStep, ping_test, check_cache,
      update_cache, cache_duration, List.foldl_cons]
  · have hp : pingsOf [none, some 30, some 30, some 30, some 30, some 30, some 30,
        some 30, some 30, some (30 : ℚ)] = List.replicate 9 30 := by
      simp [pingsOf, List.filterMap_cons]
    have hB : (pingsOf [none, some 30, some 30, some 30, some 30, some 30, some 30,
        some 30, some 30, some (30 : ℚ)]).isEmpty = false := by
      rw [hp]
      simp
    rw [get_health_score_packet_loss_eq 0 [] hB, hp, List.length_replicate]
    norm_num [ping_count, round2, roundHalfEven]

/-- C2 witness: a concrete burst of ten failed probes yields the short-circuit
result and the bare 0. -/
theorem health_score_zero_success_witness :
    burstAllFail.length = 10 ∧ pingsOf burstAllFail = [] ∧
    (get_health_score burstAllFail 0 [] =
      { score := 0, category := "Desconectado", latency := none, packet_loss := 100,
        jitter := none, uptime := 0, pings_successful := 0, pings_total := ping_count,
        alerts := ["Sem conexão com a internet"] } ∧
    get_health_score_simple burstAllFail 0 [] = 0) := by
  refine ⟨rfl, rfl, ?_⟩
  exact health_score_zero_success burstAllFail 0 [] rfl rfl

end HealthTracker
